import Mathlib

/-!
Verification of the CreditAnalyzerV1 credit-risk calculators (`src/app.py`)
against their natural-language specification.

The Python code is shallowly embedded over `ℚ`.  Transcendental library
functions (`np.log`, `np.sqrt`, `scipy.stats.norm.cdf`, `math.exp`) are
external collaborators of the code under verification; they are passed in as
function parameters (bundled in `RealFns`), and theorems hypothesise exactly
the properties of the genuine functions they need (positivity of the normal
CDF, `sqrt 1 = 1`, monotonicity, ...).  Python exceptions are modelled with
`Option`/`Except`: an operation that the code guards with `try/except`
returns `none`/`.error` where the Python operation raises (non-positive
argument to `log`, zero divisor).  Values held in fetched pandas dataframes
are modelled by `PyVal`, which distinguishes NaN, the infinities and finite
rationals, because `is_problematic` in the source inspects exactly those
cases.
-/

namespace CreditAnalyzer

/-- A float value fetched from the market-data provider: NaN, `±inf`, or a
finite number (modelled as a rational). -/
inductive PyVal where
  | nan
  | inf
  | ninf
  | num (q : ℚ)
  deriving DecidableEq

namespace PyVal

/-- `pd.isna` on a scalar. -/
def isNA : PyVal → Bool
  | nan => true
  | _ => false

/-- `np.isinf` on a scalar. -/
def isInf : PyVal → Bool
  | inf => true
  | ninf => true
  | _ => false

/-- IEEE-style addition: NaN propagates, `inf + (-inf)` is NaN. -/
def add : PyVal → PyVal → PyVal
  | nan, _ => nan
  | _, nan => nan
  | inf, ninf => nan
  | ninf, inf => nan
  | inf, _ => inf
  | _, inf => inf
  | ninf, _ => ninf
  | _, ninf => ninf
  | num a, num b => num (a + b)

/-- IEEE-style subtraction. -/
def sub : PyVal → PyVal → PyVal
  | nan, _ => nan
  | _, nan => nan
  | inf, inf => nan
  | ninf, ninf => nan
  | inf, _ => inf
  | _, inf => ninf
  | ninf, _ => ninf
  | _, ninf => inf
  | num a, num b => num (a - b)

/-- IEEE-style multiplication: `inf * 0` is NaN. -/
def mul : PyVal → PyVal → PyVal
  | nan, _ => nan
  | _, nan => nan
  | inf, inf => inf
  | inf, ninf => ninf
  | ninf, inf => ninf
  | ninf, ninf => inf
  | inf, num b => if b = 0 then nan else if 0 < b then inf else ninf
  | num a, inf => if a = 0 then nan else if 0 < a then inf else ninf
  | ninf, num b => if b = 0 then nan else if 0 < b then ninf else inf
  | num a, ninf => if a = 0 then nan else if 0 < a then ninf else inf
  | num a, num b => num (a * b)

/-- Division, with numpy float64 semantics: division by zero yields a
signed infinity (NaN for `0/0`) under a RuntimeWarning rather than raising.
Every use of `div` in the three calculators is guarded so that the divisor
is a nonzero finite number, so the zero-divisor arms are unreachable
there. -/
def div : PyVal → PyVal → PyVal
  | nan, _ => nan
  | _, nan => nan
  | inf, inf => nan
  | inf, ninf => nan
  | ninf, inf => nan
  | ninf, ninf => nan
  | inf, num b => if b = 0 then inf else if 0 < b then inf else ninf
  | ninf, num b => if b = 0 then ninf else if 0 < b then ninf else inf
  | num _, inf => num 0
  | num _, ninf => num 0
  | num a, num b =>
    if b = 0 then (if a = 0 then nan else if 0 < a then inf else ninf)
    else num (a / b)

/-- Strict `<` comparison; any comparison with NaN is false. -/
def lt : PyVal → PyVal → Bool
  | nan, _ => false
  | _, nan => false
  | inf, _ => false
  | _, inf => true
  | ninf, ninf => false
  | ninf, _ => true
  | _, ninf => false
  | num a, num b => decide (a < b)

/-- The rational carried by a finite value (0 otherwise; every use in the
calculators is on values already checked to be finite). -/
def toRat : PyVal → ℚ
  | num q => q
  | _ => 0

end PyVal

open PyVal

/-- `is_problematic` (src/app.py:197): NaN, infinite, zero, or of absolute
value below `1e-6`. -/
def is_problematic (v : PyVal) : Bool :=
  v.isNA || v.isInf ||
    (match v with
     | .num q => q == 0 || decide (|q| < 1 / 1000000)
     | _ => false)

/-- A fetched statement table: named rows, each with an ordered list of
period values (most recent first).  Mirrors the pandas DataFrames returned
by the data provider (row names unique, rectangular). -/
abbrev Df : Type := List (String × List PyVal)

/-- `key in df.index` / `df.loc[key]`: the first row carrying the name. -/
def dfLoc (df : Df) (k : String) : Option (List PyVal) :=
  (df.find? (fun r => r.1 == k)).map (fun r => r.2)

/-- `safe_get` (src/app.py:207): walk the candidate names in order; a name
that is present with a non-problematic value at `idx` wins; a present name
whose row has no value at `idx` makes `.iloc` raise, which the surrounding
`try/except` turns into the sentinel `(0, None)` for the whole call. -/
def safe_get (df : Df) (keys : List String) (idx : Nat) : PyVal × Option String :=
  match keys with
  | [] => (.num 0, none)
  | k :: rest =>
    match dfLoc df k with
    | none => safe_get df rest idx
    | some vals =>
      match vals.get? idx with
      | none => (.num 0, none)
      | some v => if is_problematic v then safe_get df rest idx else (v, some k)

/-- Modelled from the spec ("return the first value that is not problematic,
else a sentinel absent value"): the resolver the specification describes,
which simply skips any candidate that does not yield a usable value.  Used
as the comparison point for the refinement claims about `safe_get`. -/
def specResolve (df : Df) (keys : List String) (idx : Nat) : PyVal × Option String :=
  match keys with
  | [] => (.num 0, none)
  | k :: rest =>
    match (dfLoc df k).bind (fun vals => vals.get? idx) with
    | none => specResolve df rest idx
    | some v => if is_problematic v then specResolve df rest idx else (v, some k)

/-- The external numerical library functions the calculators call:
`np.log`, `np.sqrt`, `scipy.stats.norm.cdf` and `math.exp`. -/
structure RealFns where
  log : ℚ → ℚ
  sqrt : ℚ → ℚ
  normCdf : ℚ → ℚ
  exp : ℚ → ℚ

/-- The mutable state of the Merton fixed-point iteration
(src/app.py:985-1008): implied asset value and asset volatility. -/
structure MState where
  V_A : ℚ
  sigma_A : ℚ
  deriving DecidableEq

/-- One body execution of the iteration loop (src/app.py:995-1008), as a
*guarded* model: `none` marks the arithmetic conditions the specification
calls failures (non-positive argument to `np.log`, zero divisor, zero CDF
value).  The positive-input theorems below prove these arms unreachable,
so nothing proved about positive inputs rests on them; what the source
genuinely does when such a condition is hit — numpy returns NaN/inf with a
RuntimeWarning and nothing raises — is modelled separately by
`mertonStepNp`.  `some (s, true)` means the convergence test fired (the
loop breaks **without** updating the state), `some (s, false)` carries the
dampened next state.  The unused `d2 = d1 - sigma_A*sqrt(T)` of the source
is pure arithmetic and is omitted. -/
def mertonStep (fns : RealFns) (E F sigmaE : ℚ) (s : MState) : Option (MState × Bool) :=
  if s.V_A / F ≤ 0 then none
  else if s.sigma_A * fns.sqrt 1 = 0 then none
  else
    let d1 := (fns.log (s.V_A / F) + (1/20 + s.sigma_A ^ 2 / 2) * 1) / (s.sigma_A * fns.sqrt 1)
    if fns.normCdf d1 = 0 then none
    else if s.V_A * fns.normCdf d1 = 0 then none
    else
      let V_A_new := E / fns.normCdf d1
      let sigma_A_new := sigmaE * E / (s.V_A * fns.normCdf d1)
      if |V_A_new - s.V_A| < 1/10000 ∧ |sigma_A_new - s.sigma_A| < 1/10000 then
        some (s, true)
      else
        some (⟨(s.V_A + V_A_new) / 2, (s.sigma_A + sigma_A_new) / 2⟩, false)

/-- The `for i in range(max_iterations)` loop (src/app.py:994-1013), with
the iteration counter threaded for the error message.  Returns the final
state, the `converged` flag, and the problematic-values note produced when
an iteration failed and the loop broke out keeping the previous state. -/
def mertonLoopGo (fns : RealFns) (E F sigmaE : ℚ) :
    Nat → Nat → MState → MState × Bool × Option String
  | 0, _, s => (s, false, none)
  | fuel + 1, i, s =>
    match mertonStep fns E F sigmaE s with
    | none => (s, false, some ("Convergence error in iteration " ++ toString i))
    | some (s1, true) => (s1, true, none)
    | some (s1, false) => mertonLoopGo fns E F sigmaE fuel (i + 1) s1

/-- The whole iteration: initial guesses `V_A = E + F`,
`sigma_A = sigma_E * E / V_A`, at most 100 iterations (src/app.py:985-994). -/
def mertonLoop (fns : RealFns) (E F sigmaE : ℚ) : MState × Bool × Option String :=
  mertonLoopGo fns E F sigmaE 100 0 ⟨E + F, sigmaE * E / (E + F)⟩

/-- The final distance-to-default / probability computation with the
sanity-check clamp (src/app.py:1017-1033), as a guarded model: `none`
marks the arithmetic conditions of the final formula (non-positive `log`
argument, zero divisor), proven unreachable under the positive-input
hypotheses of the theorems that use it; the genuine numpy behaviour at
such a condition (a NaN distance-to-default and NaN probability returned
as-is, both clamp comparisons being false on NaN) is modelled by
`mertonFinalNp`.  Returns the probability, the distance to default, and
the clamp notes. -/
def mertonFinal (fns : RealFns) (F : ℚ) (s : MState) : Option (ℚ × ℚ × List String) :=
  if s.V_A / F ≤ 0 then none
  else if s.sigma_A * fns.sqrt 1 = 0 then none
  else
    let dd := (fns.log (s.V_A / F) + (1/20 - s.sigma_A ^ 2 / 2) * 1) / (s.sigma_A * fns.sqrt 1)
    let p := fns.normCdf (-dd)
    if 99/100 < p then some (99/100, dd, ["Capped probability at 99%"])
    else if p < 1/100 then some (1/100, dd, ["Floored probability at 1%"])
    else some (p, dd, [])

/-- The Merton solver core, from resolved equity value `E`, face value of
debt `F` and equity volatility `sigmaE` to the optional
(probability, distance-to-default) pair plus the problematic/substituted
notes produced from src/app.py:985-1037.  The `E + F = 0` arm is a guard
model of the initial `sigma_A` division (on numpy scalars a zero `V_A`
divides to inf/NaN silently instead; see `mertonCoreNp` for the
genuine-semantics model); it is unreachable under the positive-input
hypotheses of the theorems that use this definition. -/
def mertonCore (fns : RealFns) (sigmaE E F : ℚ) :
    Option (ℚ × ℚ) × List String × List String :=
  if E + F = 0 then (none, ["Merton Model Calculation Error"], [])
  else
    let r := mertonLoop fns E F sigmaE
    let probs := r.2.2.toList
    let subs := if r.2.1 then [] else ["Using last iteration values (no convergence)"]
    match mertonFinal fns F r.1 with
    | none => (none, probs ++ ["Error in final probability calculation"], subs)
    | some (p, dd, clampNotes) => (some (p, dd), probs, subs ++ clampNotes)

/-- Modelled from the spec: the fixed-point iteration exactly as the claim
words it — initialise `V_A = E + F`, `sigma_A = sigma_E*E/V_A`, iterate at
most 100 times, stop exactly when both updates move less than `1e-4`,
otherwise replace the state by the midpoints.  (No failure cases: the claim
describes only the arithmetic.)  Recursor for `mertonIterClaim`. -/
def mertonIterClaimGo (fns : RealFns) (E F sigmaE : ℚ) :
    Nat → ℚ → ℚ → ℚ × ℚ × Bool
  | 0, V, sig => (V, sig, false)
  | fuel + 1, V, sig =>
    let d1 := (fns.log (V / F) + (1/20 + sig ^ 2 / 2) * 1) / (sig * fns.sqrt 1)
    let V_new := E / fns.normCdf d1
    let sig_new := sigmaE * E / (V * fns.normCdf d1)
    if |V_new - V| < 1/10000 ∧ |sig_new - sig| < 1/10000 then (V, sig, true)
    else mertonIterClaimGo fns E F sigmaE fuel ((V + V_new) / 2) ((sig + sig_new) / 2)

/-- Modelled from the spec: entry point of the claimed iteration. -/
def mertonIterClaim (fns : RealFns) (E F sigmaE : ℚ) : ℚ × ℚ × Bool :=
  mertonIterClaimGo fns E F sigmaE 100 (E + F) (sigmaE * E / (E + F))

/-- A fetched OHLC price history.  `adjClose = none` models a dataframe
without an `Adj Close` column, in which case the Adj Close column access
raises a `KeyError`.  The row count of the dataframe is the length of the
`close` series. -/
structure Hist where
  close : List ℚ
  adjClose : Option (List ℚ)
  high : List ℚ
  low : List ℚ
  deriving DecidableEq

/-- `len(stock_data)`. -/
def histLen (h : Hist) : Nat := h.close.length

/-- One log-return `np.log(curr / prev)`; `none` when the ratio is not a
positive finite number (pandas NaN). -/
def logret (log : ℚ → ℚ) (prev curr : ℚ) : Option ℚ :=
  if 0 < curr / prev then some (log (curr / prev)) else none

/-- `np.log(series / series.shift(1))`: the first entry is always NaN. -/
def returnsShift (log : ℚ → ℚ) : List ℚ → List (Option ℚ)
  | [] => []
  | c :: rest => none :: (List.zip (c :: rest) rest).map (fun p => logret log p.1 p.2)

/-- The high/low series ratio `np.log(High / Low)`: same-row ratios, no
shift. -/
def returnsHL (log : ℚ → ℚ) (high low : List ℚ) : List (Option ℚ) :=
  (List.zip high low).map (fun p => logret log p.2 p.1)

/-- Sum of a list of rationals. -/
def lsum (xs : List ℚ) : ℚ := xs.foldr (· + ·) 0

/-- Sample variance with `ddof = 1` (the pandas default). -/
def svar (xs : List ℚ) : ℚ :=
  let m := lsum xs / (xs.length : ℚ)
  lsum (xs.map (fun x => (x - m) ^ 2)) / ((xs.length : ℚ) - 1)

/-- `series.std()`: pandas skips NaNs and yields NaN (modelled `none`) when
fewer than two valid observations remain. -/
def stdOpt (sqrt : ℚ → ℚ) (rets : List (Option ℚ)) : Option ℚ :=
  let v := rets.filterMap id
  if v.length < 2 then none else some (sqrt (svar v))

/-- `returns.std() == 0 or np.isnan(returns.std())`. -/
def stdZeroOrNaN (s : Option ℚ) : Bool :=
  match s with
  | none => true
  | some x => x == 0

/-- The volatility block of `calculate_merton_default` (src/app.py:893-916):
close-price log-returns, then adjusted close, then high/low range, then the
fixed `0.3` default.  `.error` models the caught exception path ("Error
calculating volatility"), reached when the `Adj Close` column is absent. -/
def computeVol (fns : RealFns) (h : Hist) : Except String (ℚ × List String) :=
  let s1 := stdOpt fns.sqrt (returnsShift fns.log h.close)
  let annualize : Option ℚ → List String → ℚ × List String := fun s notes =>
    match s with
    | none => (3/10, notes ++ ["Using market average volatility (0.3)"])
    | some x =>
      if x * fns.sqrt 252 = 0 then
        (3/10, notes ++ ["Using market average volatility (0.3)"])
      else (x * fns.sqrt 252, notes)
  if stdZeroOrNaN s1 then
    match h.adjClose with
    | none => .error "Error calculating volatility"
    | some ac =>
      let s2 := stdOpt fns.sqrt (returnsShift fns.log ac)
      if stdZeroOrNaN s2 then
        let s3 := stdOpt fns.sqrt (returnsHL fns.log h.high h.low)
        .ok (annualize s3 ["Using high-low range for volatility calculation"])
      else .ok (annualize s2 ["Using adjusted close prices for volatility"])
  else .ok (annualize s1 [])

/-- The inputs `calculate_merton_default` consumes: the three lookback
histories, the `company.info` fields it reads (Python `info.get(k, 0)`
defaults an absent field to `0`), and the balance sheet. -/
structure MInput where
  h1y : Hist
  h6m : Hist
  h3m : Hist
  marketCap : PyVal
  sharesOutstanding : PyVal
  floatShares : PyVal
  currentPrice : PyVal
  bs : Df
  deriving DecidableEq

/-- The lookback-window widening (src/app.py:876-889): 1y, then 6mo, then
3mo, each requiring at least 30 rows; `none` when all three fail. -/
def pickHist (inp : MInput) : Option (Hist × List String) :=
  if 30 ≤ histLen inp.h1y then some (inp.h1y, [])
  else if 30 ≤ histLen inp.h6m then
    some (inp.h6m, ["Using 6-month price history for volatility"])
  else if 30 ≤ histLen inp.h3m then
    some (inp.h3m, ["Using 3-month price history for volatility"])
  else none

/-- The market-value-of-equity resolution chain (src/app.py:922-948):
`marketCap`, else shares (outstanding, else float) times price (current,
else last close), else book equity with a 10% premium, else fail with the
problematic note "Market Value of Equity".  Returns the resolved value,
the problematic notes, and the substituted notes. -/
def resolveMarketCap (inp : MInput) (lastClose : ℚ) :
    Option PyVal × List String × List String :=
  if is_problematic inp.marketCap then
    let sharesRes :=
      if is_problematic inp.sharesOutstanding then
        (inp.floatShares,
          if is_problematic inp.floatShares then ([] : List String)
          else ["Using float shares instead of shares outstanding"])
      else (inp.sharesOutstanding, [])
    let priceRes :=
      if is_problematic inp.currentPrice then
        (PyVal.num lastClose, ["Using latest closing price"])
      else (inp.currentPrice, ([] : List String))
    let mc2 := sharesRes.1.mul priceRes.1
    let notes := sharesRes.2 ++ priceRes.2
    if is_problematic mc2 then
      let te := (safe_get inp.bs ["Total Equity", "TotalEquity"] 0).1
      if is_problematic te then (none, ["Market Value of Equity"], notes)
      else
        (some (te.mul (.num (11/10))), [],
          notes ++ ["Using book value of equity with premium"])
    else (some mc2, [], notes ++ ["Market Cap (calculated from Shares * Price)"])
  else (some inp.marketCap, [], [])

/-- The face-value-of-debt resolution chain (src/app.py:951-971): total
liabilities, else current liabilities + long-term debt, else total debt
with a 20% uplift, else fail with the problematic note
"Total Liabilities". -/
def resolveLiabilities (bs : Df) : Option PyVal × List String × List String :=
  let tl := (safe_get bs
    ["Total Liabilities Net Minority Interest", "TotalLiabilities", "Total Liabilities"] 0).1
  if is_problematic tl then
    let cl := (safe_get bs ["Current Liabilities", "TotalCurrentLiabilities"] 0).1
    let ltd := (safe_get bs ["Long Term Debt", "LongTermDebt"] 0).1
    let tl2 := cl.add ltd
    if is_problematic tl2 then
      let td := (safe_get bs ["Total Debt", "TotalDebt"] 0).1
      if is_problematic td then (none, ["Total Liabilities"], [])
      else
        (some (td.mul (.num (6/5))), [],
          ["Using total debt with adjustment for non-debt liabilities"])
    else
      (some tl2, [],
        ["Total Liabilities (sum of current liabilities and long-term debt)"])
  else (some tl, [], [])

/-- `calculate_merton_default` (src/app.py:866-1041), end to end: pick a
history window, derive the equity volatility, resolve market value of
equity and total liabilities, then run the solver core.  Returns
`(prob_default, distance_to_default, problematic_values, substituted_values)`.
The fetched `income_stmt` of the source is assigned but never used, and the
risk-free rate is the fixed `0.05`; both are inlined. -/
def calculate_merton_default (fns : RealFns) (inp : MInput) :
    Option ℚ × Option ℚ × List String × List String :=
  match pickHist inp with
  | none => (none, none, ["Insufficient stock price history"], [])
  | some (h, subs0) =>
    match computeVol fns h with
    | .error e => (none, none, [e], subs0)
    | .ok (vol, subs1) =>
      match resolveMarketCap inp (h.close.getLastD 0) with
      | (none, probs2, subs2) => (none, none, probs2, subs0 ++ subs1 ++ subs2)
      | (some mcv, _, subs2) =>
        match resolveLiabilities inp.bs with
        | (none, probs3, subs3) =>
          (none, none, probs3, subs0 ++ subs1 ++ subs2 ++ subs3)
        | (some tlv, _, subs3) =>
          let core := mertonCore fns vol mcv.toRat tlv.toRat
          match core.1 with
          | none => (none, none, core.2.1, subs0 ++ subs1 ++ subs2 ++ subs3 ++ core.2.2)
          | some (p, dd) =>
            (some p, some dd, core.2.1, subs0 ++ subs1 ++ subs2 ++ subs3 ++ core.2.2)

/-- The inputs `calculate_z_score` consumes: balance sheet, income
statement, and the `company.info` fields it reads (absent fields default
to `0` via `info.get(k, 0)`). -/
structure ZInput where
  bs : Df
  istm : Df
  marketCap : PyVal
  sharesOutstanding : PyVal
  currentPrice : PyVal
  deriving DecidableEq

/-- Total-assets resolution of `calculate_z_score` (src/app.py:706-715):
the aggregate field, else Current + Non-Current; `none` aborts the whole
calculator with the problematic note "Total Assets". -/
def resolveZTotalAssets (bs : Df) : Option (PyVal × List String) :=
  let ta := (safe_get bs ["Total Assets", "TotalAssets"] 0).1
  if is_problematic ta then
    let ca := (safe_get bs ["Current Assets", "TotalCurrentAssets"] 0).1
    let nca := (safe_get bs ["Non Current Assets", "TotalNonCurrentAssets"] 0).1
    let ta2 := ca.add nca
    if is_problematic ta2 then none
    else some (ta2, ["Total Assets (calculated from Current + Non-Current Assets)"])
  else some (ta, [])

/-- `calculate_z_score` (src/app.py:692-783).  Returns
`(z_score, problematic_values, substituted_values)`; a failed fallback for
retained earnings, EBIT, market value or sales only records a note and the
formula proceeds with the (problematic) value, exactly as in the source. -/
def calculate_z_score (inp : ZInput) : Option PyVal × List String × List String :=
  match resolveZTotalAssets inp.bs with
  | none => (none, ["Total Assets"], [])
  | some (ta, subsTA) =>
    let ca := (safe_get inp.bs
      ["Current Assets", "CurrentAssets", "TotalCurrentAssets"] 0).1
    let cl := (safe_get inp.bs
      ["Current Liabilities", "CurrentLiabilities", "TotalCurrentLiabilities"] 0).1
    let wc := ca.sub cl
    let re0 := (safe_get inp.bs ["Retained Earnings", "RetainedEarnings"] 0).1
    let reRes :=
      if is_problematic re0 then
        let te := (safe_get inp.bs ["Total Equity", "TotalEquity"] 0).1
        let cs := (safe_get inp.bs ["Capital Stock", "CommonStock"] 0).1
        let re1 := te.sub cs
        if is_problematic re1 then (re1, ["Retained Earnings"], ([] : List String))
        else (re1, [], ["Retained Earnings (calculated from Total Equity - Capital Stock)"])
      else (re0, [], [])
    let eb0 := (safe_get inp.istm ["EBIT", "OperatingIncome"] 0).1
    let ebRes :=
      if is_problematic eb0 then
        let ebitda := (safe_get inp.istm ["EBITDA"] 0).1
        let dep := (safe_get inp.istm ["Depreciation", "DepreciationAndAmortization"] 0).1
        let eb1 := ebitda.sub dep
        if is_problematic eb1 then (eb1, ["EBIT"], ([] : List String))
        else (eb1, [], ["EBIT (calculated from EBITDA - Depreciation)"])
      else (eb0, [], [])
    let mvRes :=
      if is_problematic inp.marketCap then
        let mv1 := inp.sharesOutstanding.mul inp.currentPrice
        if is_problematic mv1 then (mv1, ["Market Value"], ([] : List String))
        else (mv1, [], ["Market Value (calculated from Shares * Price)"])
      else (inp.marketCap, [], [])
    let tl := (safe_get inp.bs
      ["Total Liabilities Net Minority Interest", "TotalLiabilities", "Total Liabilities"] 0).1
    let sales := (safe_get inp.istm ["Total Revenue", "TotalRevenue", "Revenue"] 0).1
    let salesProbs := if is_problematic sales then ["Sales/Revenue"] else ([] : List String)
    let probs := reRes.2.1 ++ ebRes.2.1 ++ mvRes.2.1 ++ salesProbs
    let subs := subsTA ++ reRes.2.2 ++ ebRes.2.2 ++ mvRes.2.2
    if is_problematic ta then (none, probs, subs)
    else
      let A := wc.div ta
      let B := reRes.1.div ta
      let C := ebRes.1.div ta
      let D := if is_problematic tl then PyVal.num 0 else mvRes.1.div tl
      let E := sales.div ta
      let z := (((((PyVal.num (6/5)).mul A).add ((PyVal.num (7/5)).mul B)).add
        ((PyVal.num (33/10)).mul C)).add ((PyVal.num (3/5)).mul D)).add
        ((PyVal.num 1).mul E)
      (some z, probs, subs)

/-- The inputs `calculate_ohlson_score` consumes (it reads only the balance
sheet and the income statement; `company.info` is fetched but unused). -/
structure OInput where
  bs : Df
  istm : Df
  deriving DecidableEq

/-- Total-assets resolution of `calculate_ohlson_score`
(src/app.py:799-810): the aggregate field, else
`sum([currentAssets, nonCurrentAssets])`. -/
def resolveOTotalAssets (bs : Df) : Option (PyVal × List String) :=
  let ta := (safe_get bs ["Total Assets", "TotalAssets"] 0).1
  if is_problematic ta then
    let ta2 := (safe_get bs ["Current Assets", "TotalCurrentAssets"] 0).1.add
      ((safe_get bs ["Non Current Assets", "TotalNonCurrentAssets"] 0).1)
    if is_problematic ta2 then none
    else some (ta2, ["Total Assets (sum of Current and Non-Current)"])
  else some (ta, [])

/-- The O-Score combination exactly as written in src/app.py:854-855 — note
the `oeneg` indicator carries *two* terms, `+2.37*oeneg` and
`-1.72*oeneg`. -/
def oScoreFrom (size tlta wcta clca oeneg nita intwo chin : ℚ) : ℚ :=
  -1.32 - 0.407 * size + 6.03 * tlta - 1.43 * wcta + 0.0757 * clca
    + 2.37 * oeneg - 1.83 * nita + 0.285 * intwo - 1.72 * oeneg - 0.521 * chin

/-- The final probability computation of `calculate_ohlson_score`
(src/app.py:854-864): `prob = 1/(1 + exp(-o_score))`, whose `except` guard
(a zero denominator raises, caught with a "Calculation Error" note) is the
only failure point once the O-Score itself is computed. -/
def ohlsonFinish (fns : RealFns) (o : ℚ) (probs subs : List String) :
    Option ℚ × Option ℚ × List String × List String :=
  if 1 + fns.exp (-o) = 0 then (none, none, probs ++ ["Calculation Error"], subs)
  else (some o, some (1 / (1 + fns.exp (-o))), probs, subs)

/-- `calculate_ohlson_score` (src/app.py:785-864).  All values that survive
`safe_get` are finite, so the ratio arithmetic is carried out in `ℚ`.  The
inner `try/except` around previous-year data is entered exactly when the
`chin` denominator `abs(ni) + abs(prev)` is zero (the only statement of
that block that can raise), resetting `intwo = chin = 0` with a note.
Returns `(o_score, prob_default, problematic_values, substituted_values)`. -/
def calculate_ohlson_score (fns : RealFns) (inp : OInput) :
    Option ℚ × Option ℚ × List String × List String :=
  match resolveOTotalAssets inp.bs with
  | none => (none, none, ["Total Assets"], [])
  | some (taV, subsTA) =>
    let ta := taV.toRat
    let size := fns.log (max ta 10000)
    let caV := (safe_get inp.bs ["Current Assets", "TotalCurrentAssets"] 0).1
    let clV := (safe_get inp.bs ["Current Liabilities", "TotalCurrentLiabilities"] 0).1
    let wc := caV.toRat - clV.toRat
    let tlV := (safe_get inp.bs
      ["Total Liabilities Net Minority Interest", "TotalLiabilities"] 0).1
    let tlta := if is_problematic tlV then 0 else tlV.toRat / ta
    let wcta := wc / ta
    let clca := if is_problematic caV then 0 else clV.toRat / caV.toRat
    let oeneg : ℚ := if ta < tlV.toRat then 1 else 0
    let ni0 := (safe_get inp.istm ["Net Income", "NetIncome"] 0).1
    let niRes :=
      if is_problematic ni0 then
        let oi := (safe_get inp.istm ["Operating Income", "OperatingIncome"] 0).1
        let ie := (safe_get inp.istm ["Interest Expense", "InterestExpense"] 0).1
        let tx := (safe_get inp.istm ["Tax Provision", "TaxProvision"] 0).1
        let ni1 := PyVal.num (oi.toRat - ie.toRat - tx.toRat)
        if is_problematic ni1 then (ni1, ["Net Income"], ([] : List String))
        else (ni1, [], ["Net Income (Operating Income - Interest - Tax)"])
      else (ni0, [], [])
    let ni := niRes.1.toRat
    let nita := if is_problematic niRes.1 then 0 else ni / ta
    let prev := (safe_get inp.istm ["Net Income", "NetIncome"] 1).1.toRat
    let chinRes :=
      if |ni| + |prev| = 0 then
        ((0 : ℚ), (0 : ℚ), ["Previous year\x27s data not available"])
      else
        ((if ni < 0 ∧ prev < 0 then (1 : ℚ) else 0),
          (ni - prev) / (|ni| + |prev|), ([] : List String))
    let o := oScoreFrom size tlta wcta clca oeneg nita chinRes.1 chinRes.2.1
    let probs := niRes.2.1
    let subs := subsTA ++ niRes.2.2 ++ chinRes.2.2
    ohlsonFinish fns o probs subs

/-- The sanity-check clamp of src/app.py:1025-1030 as a function of the raw
probability. -/
def clampProb (x : ℚ) : ℚ :=
  if 99/100 < x then 99/100 else if x < 1/100 then 1/100 else x

/-- Note list of a volatility-block result (empty on the error path). -/
def noteOf (r : Except String (ℚ × List String)) : List String :=
  match r with
  | .ok (_, ns) => ns
  | .error _ => []

/-- The claim "holding `F` and `sigma_E` fixed, the default probability is
strictly decreasing in the equity value `E`", stated for every collection
of library functions sharing the relevant properties of the genuine
`ln` / `sqrt` / normal CDF (strictly monotone CDF with values in `(0,1)`,
`ln` strictly monotone on the positives, `sqrt 1 = 1`). -/
def MertonProbStrictlyDecreasingInE : Prop :=
  ∀ fns : RealFns, StrictMono fns.normCdf → (∀ x, 0 < fns.normCdf x) →
    (∀ x, fns.normCdf x < 1) → StrictMonoOn fns.log (Set.Ioi (0 : ℚ)) →
    fns.sqrt 1 = 1 →
    ∀ F sigmaE E1 E2 : ℚ, 0 < F → 0 < sigmaE → 0 < E1 → E1 < E2 →
    ∀ p1 dd1 p2 dd2 : ℚ,
      (mertonCore fns sigmaE E1 F).1 = some (p1, dd1) →
      (mertonCore fns sigmaE E2 F).1 = some (p2, dd2) →
      p2 < p1

/-- CDF stand-in for the counterexample runs: strictly monotone, valued in
`(0, 1)`, exactly like the genuine normal CDF. -/
def cxPhi (x : ℚ) : ℚ := 1/2 + x / (2 * (1 + |x|))

/-- Initial asset volatility of the first counterexample run
(`E = 999999`, `F = 1`, `sigma_E = 3/10`). -/
def cxSigma1 : ℚ := 3/10 * 999999 / 1000000

/-- Value the log stand-in must take at `V_A/F = 1000000` so that
`d1 = 499999` on the first iteration of the first run. -/
def cxL1 : ℚ := 499999 * cxSigma1 - 1/20 - cxSigma1 ^ 2 / 2

/-- Initial asset volatility of the second counterexample run
(`E = 1999999`, `F = 1`, `sigma_E = 3/10`). -/
def cxSigma2 : ℚ := 3/10 * 1999999 / 2000000

/-- Value the log stand-in must take at `V_A/F = 2000000` so that
`d1 = 999999` on the first iteration of the second run. -/
def cxL2 : ℚ := 999999 * cxSigma2 - 1/20 - cxSigma2 ^ 2 / 2

/-- Strictly increasing affine log stand-in through the two required
points. -/
def cxLog (x : ℚ) : ℚ := cxL1 + (x - 1000000) * (cxL2 - cxL1) / 1000000

/-- Library-function bundle for the counterexample runs. -/
def cxFns : RealFns := ⟨cxLog, fun _ => 1, cxPhi, id⟩

/-- Distance to default of the first counterexample run. -/
def cxDD1 : ℚ := 499999 - cxSigma1

/-- Distance to default of the second counterexample run. -/
def cxDD2 : ℚ := 999999 - cxSigma2

/-- The volatility-fallback claim as stated: (1) zero-or-NaN close-return
std together with a usable high/low spread makes the solver derive the
volatility from the high/low range with a note; (2) if the volatility is
still zero or NaN after all fallbacks, the fixed `0.3` default is used
with a note. -/
def VolFallbackClaim : Prop :=
  (∀ (fns : RealFns) (h : Hist), 30 ≤ histLen h →
    stdZeroOrNaN (stdOpt fns.sqrt (returnsShift fns.log h.close)) = true →
    ∀ v3, stdOpt fns.sqrt (returnsHL fns.log h.high h.low) = some v3 →
      v3 * fns.sqrt 252 ≠ 0 →
      ∃ notes, computeVol fns h = .ok (v3 * fns.sqrt 252, notes) ∧
        "Using high-low range for volatility calculation" ∈ notes)
  ∧ (∀ (fns : RealFns) (h : Hist) (ac : List ℚ), 30 ≤ histLen h →
      h.adjClose = some ac →
      stdZeroOrNaN (stdOpt fns.sqrt (returnsShift fns.log h.close)) = true →
      stdZeroOrNaN (stdOpt fns.sqrt (returnsShift fns.log ac)) = true →
      (match stdOpt fns.sqrt (returnsHL fns.log h.high h.low) with
       | none => True
       | some v3 => v3 * fns.sqrt 252 = 0) →
      ∃ notes, computeVol fns h = .ok (3/10, notes) ∧
        "Using market average volatility (0.3)" ∈ notes)

/-- All four library functions instantiated with the identity (enough for
concrete runs whose hypotheses are stated on the computed values). -/
def idFns : RealFns := ⟨id, id, id, id⟩

/-- Adjusted-close series with non-zero return variance. -/
def cx5Adj : List ℚ := (List.range 30).map (fun i => if i % 2 = 0 then 1 else 2)

/-- High series giving alternating high/low ratios 2 and 4. -/
def cx5High : List ℚ := (List.range 30).map (fun i => if i % 2 = 0 then 2 else 4)

/-- Counterexample history for the volatility-fallback claim: constant
closes (zero return variance), *varying* adjusted closes, varying high/low
spread — the source then uses the adjusted closes, not the high/low
range. -/
def cx5Hist : Hist := ⟨List.replicate 30 1, some cx5Adj, cx5High, List.replicate 30 1⟩

/-- Witness history for the amended claim: both closes and adjusted closes
constant, varying high/low spread. -/
def hist5w : Hist := ⟨List.replicate 30 1, some (List.replicate 30 1), cx5High, List.replicate 30 1⟩

/-- An empty price history. -/
def emptyHist : Hist := ⟨[], none, [], []⟩

/-- A Merton input with no price history at all and empty statements. -/
def mIn0 : MInput := ⟨emptyHist, emptyHist, emptyHist, .num 0, .num 0, .num 0, .num 0, []⟩

/-- Balance sheet for the `calculate_z_score` silent-zero demonstration:
total assets, retained earnings and total liabilities are present and
usable, but there are no current-assets / current-liabilities rows at
all. -/
def zExBs : Df :=
  [("Total Assets", [.num 1000000]),
   ("Retained Earnings", [.num 200000]),
   ("Total Liabilities Net Minority Interest", [.num 400000])]

/-- Income statement for the silent-zero demonstration. -/
def zExIs : Df := [("EBIT", [.num 50000]), ("Total Revenue", [.num 800000])]

/-- Input for the silent-zero demonstration: every field except working
capital resolves cleanly. -/
def zEx : ZInput := ⟨zExBs, zExIs, .num 300000, .num 0, .num 0⟩

/-- Minimal Ohlson input with a usable total-assets row. -/
def oEx : OInput := ⟨[("Total Assets", [.num 20000])], []⟩

/-- The O-Score `calculate_ohlson_score idFns oEx` produces:
`-1.32 - 0.407*20000`. -/
def oExScore : ℚ := -203533/25

/-- Library functions for the convergence witnesses: constant CDF `1/2`. -/
def c1Fns : RealFns := ⟨id, fun _ => 1, fun _ => 1/2, id⟩

/-- Negation of a float scalar. -/
def pyNeg : PyVal → PyVal
  | .nan => .nan
  | .inf => .ninf
  | .ninf => .inf
  | .num q => .num (-q)

/-- `abs` of a float scalar. -/
def pyAbs : PyVal → PyVal
  | .nan => .nan
  | .inf => .inf
  | .ninf => .inf
  | .num q => .num |q|

/-- `np.log` on a float scalar under genuine numpy semantics: NaN for NaN
and for negative arguments, `-inf` at zero, `inf` at `inf` — at most a
RuntimeWarning, never an exception. -/
def npLog (log : ℚ → ℚ) : PyVal → PyVal
  | .nan => .nan
  | .inf => .inf
  | .ninf => .nan
  | .num q => if 0 < q then .num (log q) else if q = 0 then .ninf else .nan

/-- `scipy.stats.norm.cdf` on a float scalar: NaN maps to NaN, `±inf` to
`1` / `0`; never raises. -/
def npCdf (Phi : ℚ → ℚ) : PyVal → PyVal
  | .nan => .nan
  | .inf => .num 1
  | .ninf => .num 0
  | .num q => .num (Phi q)

/-- One body of the iteration loop (src/app.py:995-1008) under genuine
numpy/scipy scalar semantics: `np.log` of a non-positive argument, float
division and `norm.cdf` return NaN/inf with at most a RuntimeWarning and
never raise, so the body always completes and the `except` clause of the
source never fires for these arithmetic conditions — a NaN simply makes
the convergence comparisons false and flows into the dampened state. -/
def mertonStepNp (fns : RealFns) (E F sigmaE : ℚ) (s : PyVal × PyVal) :
    (PyVal × PyVal) × Bool :=
  let d1 := ((npLog fns.log (s.1.div (.num F))).add
      (((PyVal.num (1/20)).add ((PyVal.num (1/2)).mul (s.2.mul s.2))).mul (.num 1))).div
      (s.2.mul (.num (fns.sqrt 1)))
  let phi := npCdf fns.normCdf d1
  let V_A_new := (PyVal.num E).div phi
  let sigma_A_new := ((PyVal.num sigmaE).mul (.num E)).div (s.1.mul phi)
  if (pyAbs (V_A_new.sub s.1)).lt (.num (1/10000)) &&
      (pyAbs (sigma_A_new.sub s.2)).lt (.num (1/10000)) then (s, true)
  else (((PyVal.num (1/2)).mul (s.1.add V_A_new),
         (PyVal.num (1/2)).mul (s.2.add sigma_A_new)), false)

/-- The `for i in range(100)` loop under genuine scalar semantics: nothing
raises, so the loop either breaks on the convergence test or runs all 100
iterations. -/
def mertonLoopNpGo (fns : RealFns) (E F sigmaE : ℚ) :
    Nat → (PyVal × PyVal) → (PyVal × PyVal) × Bool
  | 0, s => (s, false)
  | fuel + 1, s =>
    match mertonStepNp fns E F sigmaE s with
    | (s1, true) => (s1, true)
    | (s1, false) => mertonLoopNpGo fns E F sigmaE fuel s1

/-- Initial guesses `V_A = E + F`, `sigma_A = sigma_E*E/V_A` and loop
entry (src/app.py:985-994) in float arithmetic. -/
def mertonLoopNp (fns : RealFns) (E F sigmaE : ℚ) : (PyVal × PyVal) × Bool :=
  mertonLoopNpGo fns E F sigmaE 100
    ((PyVal.num E).add (.num F),
     ((PyVal.num sigmaE).mul (.num E)).div ((PyVal.num E).add (.num F)))

/-- The final DD / probability computation with the sanity-check clamp
(src/app.py:1017-1033) under genuine scalar semantics: a NaN
distance-to-default gives `norm.cdf(-DD) = NaN`, both clamp comparisons
are false on NaN, and the NaN probability is returned as-is. -/
def mertonFinalNp (fns : RealFns) (F : ℚ) (s : PyVal × PyVal) :
    PyVal × PyVal × List String :=
  let dd := ((npLog fns.log (s.1.div (.num F))).add
      (((PyVal.num (1/20)).sub ((PyVal.num (1/2)).mul (s.2.mul s.2))).mul (.num 1))).div
      (s.2.mul (.num (fns.sqrt 1)))
  let p := npCdf fns.normCdf (pyNeg dd)
  if (PyVal.num (99/100)).lt p then (.num (99/100), dd, ["Capped probability at 99%"])
  else if p.lt (.num (1/100)) then (.num (1/100), dd, ["Floored probability at 1%"])
  else (p, dd, [])

/-- The solver core (src/app.py:985-1037) under genuine numpy/scipy scalar
semantics.  The source's `try/except` wrappers are still in the Python
text, but none of the arithmetic conditions the specification names
(non-positive `log` argument, zero `sigma_A*sqrt(T)`) raises on numpy
scalars, so neither the per-iteration "Convergence error" note nor the
final "Error in final probability calculation" note can be produced by
them: the problematic-values list stays empty and the (possibly NaN)
probability and distance-to-default are returned. -/
def mertonCoreNp (fns : RealFns) (sigmaE E F : ℚ) :
    (PyVal × PyVal) × List String × List String :=
  let r := mertonLoopNp fns E F sigmaE
  let subs := if r.2 then ([] : List String)
    else ["Using last iteration values (no convergence)"]
  let f := mertonFinalNp fns F r.1
  ((f.1, f.2.1), [], subs ++ f.2.2)

deriving instance DecidableEq for Except

section DecideEval

/- The Batteries `Rat` arithmetic operations are `@[irreducible]`, which
blocks evaluation of the embedded calculators on concrete inputs inside
`decide`; the kernel itself reduces them fine.  Re-allow unfolding locally
for the concrete witness evaluations. -/
set_option allowUnsafeReducibility true
set_option maxRecDepth 40000
attribute [local semireducible] Rat.inv Rat.mul Rat.add Rat.sub Rat.ofScientific

theorem dfLoc_mem {df : Df} {k : String} {vals : List PyVal}
    (h : dfLoc df k = some vals) : ∃ r ∈ df, r.2 = vals := by
  unfold dfLoc at h
  cases hf : df.find? (fun r => r.1 == k) with
  | none => rw [hf] at h; simp at h
  | some r =>
    rw [hf] at h
    exact ⟨r, List.mem_of_find?_eq_some hf, by simpa using h⟩

/-- C7: on a rectangular dataframe whose rows each carry a most-recent
value, `safe_get` returns the value (with the name used) of the first
candidate name that is present with a non-problematic most-recent value,
and the sentinel `(0, None)` when no candidate qualifies — i.e. it agrees
with the resolver the specification describes. -/
theorem safe_get_first_qualifying (df : Df) (keys : List String)
    (hrect : ∀ r ∈ df, 0 < r.2.length) :
    safe_get df keys 0 = specResolve df keys 0 := by
  induction keys with
  | nil => rfl
  | cons k rest ih =>
    unfold safe_get specResolve
    cases hk : dfLoc df k with
    | none => simp only [hk, Option.none_bind]; exact ih
    | some vals =>
      obtain ⟨r, hr, hrv⟩ := dfLoc_mem hk
      have hlen : 0 < vals.length := hrv ▸ hrect r hr
      cases vals with
      | nil => simp at hlen
      | cons v vs =>
        simp only [hk, Option.some_bind, List.get?]
        by_cases hp : is_problematic v
        · simp only [hp, if_true]; exact ih
        · simp [hp]

theorem safe_get_first_qualifying_witness :
    safe_get [("Foo", [.nan]), ("Total Assets", [.num 5])]
        ["Foo", "Total Assets"] 0 =
      specResolve [("Foo", [.nan]), ("Total Assets", [.num 5])]
        ["Foo", "Total Assets"] 0 :=
  safe_get_first_qualifying _ _ (by decide)

theorem specResolve_none_safe_get (df : Df) (keys : List String) (idx : Nat)
    (h : (specResolve df keys idx).2 = none) :
    safe_get df keys idx = (.num 0, none) := by
  induction keys with
  | nil => rfl
  | cons k rest ih =>
    unfold specResolve at h
    unfold safe_get
    cases hk : dfLoc df k with
    | none =>
      simp only [hk, Option.none_bind] at h
      simp only [hk]
      exact ih h
    | some vals =>
      simp only [hk, Option.some_bind] at h
      simp only [hk]
      cases hv : vals.get? idx with
      | none => simp [hv]
      | some v =>
        simp only [hv] at h ⊢
        by_cases hp : is_problematic v
        · simp only [hp, if_true] at h ⊢
          exact ih h
        · simp only [hp] at h
          simp at h

/-- C10: when no candidate qualifies (and also when a present row has no
value at the requested period, which makes `.iloc` raise inside the
`try`), `safe_get` returns exactly the sentinel `(0, None)`; the sentinel
`0` is itself classified problematic by `is_problematic`; and a caller
that uses the resolved value without re-checking — the working-capital
computation of `calculate_z_score` — silently computes with `0` and records
no note: on `zEx` both current-assets and current-liabilities lookups come
back as the sentinel, yet the Z-Score is returned with empty problematic
and substituted lists. -/
theorem safe_get_sentinel_and_silent_zero :
    (∀ (df : Df) (keys : List String) (idx : Nat),
      (specResolve df keys idx).2 = none →
      safe_get df keys idx = (.num 0, none))
    ∧ (∀ (df : Df) (k : String) (keys : List String) (idx : Nat)
        (vals : List PyVal), dfLoc df k = some vals → vals.get? idx = none →
        safe_get df (k :: keys) idx = (.num 0, none))
    ∧ is_problematic (.num 0) = true
    ∧ safe_get zEx.bs ["Current Assets", "CurrentAssets", "TotalCurrentAssets"] 0
        = (.num 0, none)
    ∧ safe_get zEx.bs
        ["Current Liabilities", "CurrentLiabilities", "TotalCurrentLiabilities"] 0
        = (.num 0, none)
    ∧ calculate_z_score zEx = (some (.num (339/200)), [], []) := by
  refine ⟨specResolve_none_safe_get, ?_, by decide, by decide, by decide, by decide⟩
  intro df k keys idx vals hk hv
  unfold safe_get
  simp only [hk, hv]

theorem safe_get_sentinel_and_silent_zero_witness :
    safe_get [("Foo", [.inf])] ["Foo", "Bar"] 0 = (.num 0, none) :=
  safe_get_sentinel_and_silent_zero.1 [("Foo", [.inf])] ["Foo", "Bar"] 0 (by decide)

/-- C6: when all three lookback windows hold fewer than 30 daily
observations, `calculate_merton_default` returns the absent result whose
problematic-values list is exactly `["Insufficient stock price history"]`;
no exception escapes (the embedding is a total function). -/
theorem merton_insufficient_history (fns : RealFns) (inp : MInput)
    (h1 : histLen inp.h1y < 30) (h2 : histLen inp.h6m < 30)
    (h3 : histLen inp.h3m < 30) :
    calculate_merton_default fns inp =
      (none, none, ["Insufficient stock price history"], []) := by
  unfold calculate_merton_default pickHist
  rw [if_neg (by omega), if_neg (by omega), if_neg (by omega)]

theorem merton_insufficient_history_witness :
    calculate_merton_default idFns mIn0 =
      (none, none, ["Insufficient stock price history"], []) :=
  merton_insufficient_history idFns mIn0 (by decide) (by decide) (by decide)

/-- Under the properties of the genuine library functions (positive normal
CDF, `sqrt 1 = 1`) and positive inputs, every iteration of the source loop
succeeds, agrees with the iteration the claim describes, and preserves
positivity of the state. -/
theorem merton_go_spec (fns : RealFns) (E F sigmaE : ℚ)
    (hE : 0 < E) (hF : 0 < F) (hs : 0 < sigmaE)
    (hsqrt : fns.sqrt 1 = 1) (hPhi : ∀ x, 0 < fns.normCdf x) :
    ∀ (fuel i : Nat) (V sig : ℚ), 0 < V → 0 < sig →
      ∃ V2 sig2 c,
        mertonLoopGo fns E F sigmaE fuel i ⟨V, sig⟩ = (⟨V2, sig2⟩, c, none) ∧
        mertonIterClaimGo fns E F sigmaE fuel V sig = (V2, sig2, c) ∧
        0 < V2 ∧ 0 < sig2 := by
  intro fuel
  induction fuel with
  | zero =>
    intro i V sig hV hsig
    exact ⟨V, sig, false, rfl, rfl, hV, hsig⟩
  | succ n ih =>
    intro i V sig hV hsig
    have hguard1 : ¬ V / F ≤ 0 := not_le.mpr (div_pos hV hF)
    have hguard2 : ¬ sig * fns.sqrt 1 = 0 := by
      rw [hsqrt, mul_one]; exact ne_of_gt hsig
    simp only [mertonLoopGo, mertonIterClaimGo, mertonStep]
    rw [if_neg hguard1, if_neg hguard2]
    set d1 := (fns.log (V / F) + (1/20 + sig ^ 2 / 2) * 1) / (sig * fns.sqrt 1) with hd1
    rw [if_neg (ne_of_gt (hPhi d1)), if_neg (ne_of_gt (mul_pos hV (hPhi d1)))]
    by_cases hc : |E / fns.normCdf d1 - V| < 1/10000 ∧
        |sigmaE * E / (V * fns.normCdf d1) - sig| < 1/10000
    · rw [if_pos hc, if_pos hc]
      exact ⟨V, sig, true, rfl, rfl, hV, hsig⟩
    · rw [if_neg hc, if_neg hc]
      exact ih (i + 1) _ _
        (div_pos (add_pos hV (div_pos hE (hPhi d1))) two_pos)
        (div_pos (add_pos hsig (div_pos (mul_pos hs hE) (mul_pos hV (hPhi d1)))) two_pos)

/-- C1: for positive equity, debt and equity volatility, the source loop
performs exactly the fixed-point iteration the claim describes — same
initial state `(E + F, sigma_E*E/(E+F))`, same `d1`, `V_A_new` and
`sigma_A_new` formulas, the same two-sided `1e-4` stopping test, the same
midpoint dampening, at most 100 iterations — with no arithmetic failure. -/
theorem merton_iteration_matches_spec (fns : RealFns) (E F sigmaE : ℚ)
    (hE : 0 < E) (hF : 0 < F) (hs : 0 < sigmaE)
    (hsqrt : fns.sqrt 1 = 1) (hPhi : ∀ x, 0 < fns.normCdf x) :
    ∃ V2 sig2 c,
      mertonLoop fns E F sigmaE = (⟨V2, sig2⟩, c, none) ∧
      mertonIterClaim fns E F sigmaE = (V2, sig2, c) := by
  have h0V : 0 < E + F := add_pos hE hF
  obtain ⟨V2, sig2, c, h1, h2, _, _⟩ :=
    merton_go_spec fns E F sigmaE hE hF hs hsqrt hPhi 100 0 (E + F)
      (sigmaE * E / (E + F)) h0V (div_pos (mul_pos hs hE) h0V)
  exact ⟨V2, sig2, c, h1, h2⟩

theorem merton_iteration_matches_spec_witness :
    ∃ V2 sig2 c,
      mertonLoop c1Fns 1 1 1 = (⟨V2, sig2⟩, c, none) ∧
      mertonIterClaim c1Fns 1 1 1 = (V2, sig2, c) :=
  merton_iteration_matches_spec c1Fns 1 1 1 (by norm_num) (by norm_num) (by norm_num)
    rfl (fun _ => by norm_num [c1Fns])

/-- C2: the claim correctly restates the source's documented intent (the
`except` handler with its use-last-valid-values comment, and the
specification's failure policy), but the code does not implement it: under
genuine numpy/scipy scalar semantics none of the named arithmetic
conditions raises.  At `(sigma_E, E, F) = (0.3, -2, 1)` the very first
iteration hits `np.log` of the non-positive `V_A/F = -1`: numpy returns
NaN instead of raising, the body completes and hands back the NaN-polluted
dampened state rather than breaking, all 100 iterations run, and the final
distance-to-default and probability are the NaN computed *from* the
polluted state — returned with an empty problematic-values list (no
convergence-error note), only the no-convergence substitution note. -/
theorem merton_nan_propagates :
    mertonStepNp idFns (-2) 1 (3/10) (.num (-1), .num (3/5)) =
      ((.nan, .nan), false) ∧
    mertonCoreNp idFns (3/10) (-2) 1 =
      ((.nan, .nan), [], ["Using last iteration values (no convergence)"]) := by
  constructor <;> decide

/-- C3: for positive `E`, `F`, `sigma_E` (and the genuine library-function
properties), the solver core returns a present probability in
`[0.01, 0.99]` together with a (finite, rational) distance-to-default
equal to `(ln(V_A/F) + (0.05 - 0.5*sigma_A^2))/sigma_A` at the final loop
state, and a clamp note is recorded whenever `Phi(-DD)` fell outside the
interval. -/
theorem merton_prob_in_range (fns : RealFns) (sigmaE E F : ℚ)
    (hE : 0 < E) (hF : 0 < F) (hs : 0 < sigmaE)
    (hsqrt : fns.sqrt 1 = 1) (hPhi : ∀ x, 0 < fns.normCdf x) :
    ∃ p dd,
      (mertonCore fns sigmaE E F).1 = some (p, dd) ∧
      1/100 ≤ p ∧ p ≤ 99/100 ∧
      dd = (fns.log ((mertonLoop fns E F sigmaE).1.V_A / F) +
            (1/20 - (mertonLoop fns E F sigmaE).1.sigma_A ^ 2 / 2) * 1) /
           (mertonLoop fns E F sigmaE).1.sigma_A ∧
      (99/100 < fns.normCdf (-dd) →
        "Capped probability at 99%" ∈ (mertonCore fns sigmaE E F).2.2) ∧
      (fns.normCdf (-dd) < 1/100 →
        "Floored probability at 1%" ∈ (mertonCore fns sigmaE E F).2.2) := by
  have h0V : 0 < E + F := add_pos hE hF
  obtain ⟨V2, sig2, c, hloop, hclaim, hV2, hsig2⟩ :=
    merton_go_spec fns E F sigmaE hE hF hs hsqrt hPhi 100 0 (E + F)
      (sigmaE * E / (E + F)) h0V (div_pos (mul_pos hs hE) h0V)
  have hloopeq : mertonLoop fns E F sigmaE = (⟨V2, sig2⟩, c, none) := hloop
  have hg1 : ¬ V2 / F ≤ 0 := not_le.mpr (div_pos hV2 hF)
  have hg2 : ¬ sig2 * fns.sqrt 1 = 0 := by rw [hsqrt, mul_one]; exact ne_of_gt hsig2
  have hfin0 : mertonFinal fns F ⟨V2, sig2⟩ =
      (let dd := (fns.log (V2 / F) + (1/20 - sig2 ^ 2 / 2) * 1) / (sig2 * fns.sqrt 1)
       let p := fns.normCdf (-dd)
       if 99/100 < p then some (99/100, dd, ["Capped probability at 99%"])
       else if p < 1/100 then some (1/100, dd, ["Floored probability at 1%"])
       else some (p, dd, [])) := by
    unfold mertonFinal
    rw [if_neg hg1, if_neg hg2]
  set dd0 := (fns.log (V2 / F) + (1/20 - sig2 ^ 2 / 2) * 1) / (sig2 * fns.sqrt 1) with hdd0
  have hddval : dd0 = (fns.log (V2 / F) + (1/20 - sig2 ^ 2 / 2) * 1) / sig2 := by
    rw [hdd0, hsqrt]; ring
  unfold mertonCore
  rw [if_neg (ne_of_gt h0V)]
  simp only [hloopeq, hfin0]
  by_cases hcap : 99/100 < fns.normCdf (-dd0)
  · rw [if_pos hcap]
    refine ⟨99/100, dd0, rfl, by norm_num, le_refl _, hddval, fun _ => ?_, fun h => ?_⟩
    · simp
    · exact absurd h (by linarith)
  · rw [if_neg hcap]
    by_cases hfloor : fns.normCdf (-dd0) < 1/100
    · rw [if_pos hfloor]
      refine ⟨1/100, dd0, rfl, le_refl _, by norm_num, hddval, fun h => ?_, fun _ => ?_⟩
      · exact absurd h (by linarith)
      · simp
    · rw [if_neg hfloor]
      refine ⟨fns.normCdf (-dd0), dd0, rfl, le_of_not_lt hfloor, le_of_not_lt hcap,
        hddval, fun h => absurd h hcap, fun h => absurd h hfloor⟩

theorem merton_prob_in_range_witness :
    ∃ p dd,
      (mertonCore c1Fns 1 1 1).1 = some (p, dd) ∧
      1/100 ≤ p ∧ p ≤ 99/100 ∧
      dd = (c1Fns.log ((mertonLoop c1Fns 1 1 1).1.V_A / 1) +
            (1/20 - (mertonLoop c1Fns 1 1 1).1.sigma_A ^ 2 / 2) * 1) /
           (mertonLoop c1Fns 1 1 1).1.sigma_A ∧
      (99/100 < c1Fns.normCdf (-dd) →
        "Capped probability at 99%" ∈ (mertonCore c1Fns 1 1 1).2.2) ∧
      (c1Fns.normCdf (-dd) < 1/100 →
        "Floored probability at 1%" ∈ (mertonCore c1Fns 1 1 1).2.2) :=
  merton_prob_in_range c1Fns 1 1 1 (by norm_num) (by norm_num) (by norm_num)
    rfl (fun _ => by norm_num [c1Fns])

theorem cxg_mono {a b : ℚ} (hab : a < b) : a * (1 + |b|) < b * (1 + |a|) := by
  rcases le_or_lt 0 a with ha | ha
  · rw [abs_of_nonneg ha, abs_of_nonneg (le_trans ha hab.le)]
    nlinarith
  · rcases le_or_lt 0 b with hb | hb
    · rw [abs_of_nonneg hb, abs_of_neg ha]
      nlinarith [mul_nonneg hb (by linarith : (0:ℚ) ≤ 1 - a),
        mul_neg_of_neg_of_pos ha (by linarith : (0:ℚ) < 1 + b)]
    · rw [abs_of_neg ha, abs_of_neg hb]
      nlinarith

theorem cxPhi_strictMono : StrictMono cxPhi := by
  intro a b hab
  unfold cxPhi
  have h := cxg_mono hab
  have h2 : a / (2 * (1 + |a|)) < b / (2 * (1 + |b|)) := by
    rw [div_lt_div_iff (by positivity) (by positivity)]
    nlinarith
  linarith

theorem cxPhi_pos (x : ℚ) : 0 < cxPhi x := by
  unfold cxPhi
  have h1 : (0:ℚ) < 1 + |x| := by positivity
  have h2 : -(1 + |x|) < x := by have := neg_abs_le x; linarith
  have h3 : -(1/2 : ℚ) < x / (2 * (1 + |x|)) := by
    rw [lt_div_iff (by positivity)]
    nlinarith
  linarith

theorem cxPhi_lt_one (x : ℚ) : cxPhi x < 1 := by
  unfold cxPhi
  have h1 : (0:ℚ) < 1 + |x| := by positivity
  have h2 : x < 1 + |x| := by have := le_abs_self x; linarith
  have h3 : x / (2 * (1 + |x|)) < 1/2 := by
    rw [div_lt_iff (by positivity)]
    nlinarith
  linarith

theorem cxLog_strictMonoOn : StrictMonoOn cxLog (Set.Ioi (0:ℚ)) := by
  have hm : 0 < cxL2 - cxL1 := by decide
  intro a _ b _ hab
  unfold cxLog
  have h1 : (a - 1000000) * (cxL2 - cxL1) < (b - 1000000) * (cxL2 - cxL1) :=
    mul_lt_mul_of_pos_right (by linarith) hm
  have h2 : (a - 1000000) * (cxL2 - cxL1) / 1000000 <
      (b - 1000000) * (cxL2 - cxL1) / 1000000 := by
    rw [div_lt_div_iff (by norm_num) (by norm_num)]
    nlinarith
  linarith

/-- C4, the claim as stated, is false: with the two runs
`(E, F, sigma_E) = (999999, 1, 0.3)` and `(1999999, 1, 0.3)` — both valid,
with `E1 < E2` and `F`, `sigma_E` held fixed — the solver floors both
probabilities at `0.01`, so the probability for the larger equity value is
not strictly smaller. -/
theorem merton_not_strictly_decreasing_in_equity :
    ¬ MertonProbStrictlyDecreasingInE := by
  intro hcl
  have h := hcl cxFns cxPhi_strictMono cxPhi_pos cxPhi_lt_one cxLog_strictMonoOn rfl
    1 (3/10) 999999 1999999 (by norm_num) (by norm_num) (by norm_num) (by norm_num)
    (1/100) cxDD1 (1/100) cxDD2 (by decide) (by decide)
  exact absurd h (lt_irrefl _)

theorem clampProb_mono : Monotone clampProb := by
  intro a b hab
  unfold clampProb
  split_ifs <;> linarith

theorem mertonFinal_some_prob (fns : RealFns) (F : ℚ) (s : MState) (p dd : ℚ)
    (cl : List String) (h : mertonFinal fns F s = some (p, dd, cl)) :
    p = clampProb (fns.normCdf (-dd)) := by
  simp only [mertonFinal] at h
  split_ifs at h with hg1 hg2 hcap hfloor <;>
    simp only [Option.some.injEq, Prod.mk.injEq] at h
  · obtain ⟨hp, hdd, -⟩ := h
    subst hdd
    rw [← hp, clampProb, if_pos hcap]
  · obtain ⟨hp, hdd, -⟩ := h
    subst hdd
    rw [← hp, clampProb, if_neg hcap, if_pos hfloor]
  · obtain ⟨hp, hdd, -⟩ := h
    subst hdd
    rw [← hp, clampProb, if_neg hcap, if_neg hfloor]

theorem mertonCore_some (fns : RealFns) (vol E F p dd : ℚ)
    (h : (mertonCore fns vol E F).1 = some (p, dd)) :
    ∃ s cl, mertonFinal fns F s = some (p, dd, cl) := by
  simp only [mertonCore] at h
  by_cases h1 : E + F = 0
  · rw [if_pos h1] at h
    simp at h
  · rw [if_neg h1] at h
    cases hfin : mertonFinal fns F (mertonLoop fns E F vol).1 with
    | none => rw [hfin] at h; simp at h
    | some t =>
      obtain ⟨t1, t2, t3⟩ := t
      rw [hfin] at h
      simp only [Option.some.injEq, Prod.mk.injEq] at h
      exact ⟨(mertonLoop fns E F vol).1, t3, by rw [hfin, h.1, h.2]⟩

/-- C4 amended: holding `F` and `sigma_E` fixed, the returned probability
is only *weakly* antitone, mediated by the distance-to-default: whenever
both runs return and the distance-to-default for `E2` is at least that for
`E1`, the probability for `E2` is at most — not necessarily strictly below
— that for `E1`, because the final probability is the `[0.01, 0.99]` clamp
of `Phi(-DD)` and the clamp is merely monotone. -/
theorem merton_prob_antitone_in_dd (fns : RealFns) (hmono : Monotone fns.normCdf)
    (sigmaE F E1 E2 p1 dd1 p2 dd2 : ℚ)
    (h1 : (mertonCore fns sigmaE E1 F).1 = some (p1, dd1))
    (h2 : (mertonCore fns sigmaE E2 F).1 = some (p2, dd2))
    (hdd : dd1 ≤ dd2) : p2 ≤ p1 := by
  obtain ⟨s1, cl1, hf1⟩ := mertonCore_some fns sigmaE E1 F p1 dd1 h1
  obtain ⟨s2, cl2, hf2⟩ := mertonCore_some fns sigmaE E2 F p2 dd2 h2
  rw [mertonFinal_some_prob fns F s1 p1 dd1 cl1 hf1,
      mertonFinal_some_prob fns F s2 p2 dd2 cl2 hf2]
  exact clampProb_mono (hmono (neg_le_neg hdd))

theorem merton_prob_antitone_in_dd_witness :
    (mertonCore cxFns (3/10) 999999 1).1 = some (1/100, cxDD1) ∧
    (mertonCore cxFns (3/10) 1999999 1).1 = some (1/100, cxDD2) ∧
    cxDD1 ≤ cxDD2 ∧ (1:ℚ)/100 ≤ 1/100 :=
  ⟨by decide, by decide, by decide,
    merton_prob_antitone_in_dd cxFns cxPhi_strictMono.monotone (3/10) 1 999999 1999999
      (1/100) cxDD1 (1/100) cxDD2 (by decide) (by decide) (by decide)⟩

/-- C5, the claim as stated, is false: on a history whose closes are
constant but whose *adjusted* closes vary (`cx5Hist`), the source takes
the adjusted-close branch — it never reaches the high/low fallback the
claim promises, and records the adjusted-close note instead. -/
theorem vol_highlow_claim_refuted : ¬ VolFallbackClaim := by
  intro hcl
  obtain ⟨hfirst, -⟩ := hcl
  obtain ⟨notes, heq, hmem⟩ := hfirst idFns cx5Hist (by decide) (by decide) (30/29)
    (by decide) (by decide)
  have hnotes : noteOf (computeVol idFns cx5Hist) = notes := by rw [heq]; rfl
  rw [← hnotes] at hmem
  exact absurd hmem (by decide)

/-- C5 amended: when the close-price log-returns *and* the adjusted-close
log-returns both have zero-or-NaN standard deviation (the `Adj Close`
column being present), the volatility is derived from the high/low range
(daily std times `sqrt 252`) with the substitution note; and if the
volatility is still zero or NaN after all fallbacks, the fixed `0.30`
default is used with a further note. -/
theorem vol_fallback_chain_amended (fns : RealFns) (h : Hist) (ac : List ℚ)
    (hlen : 30 ≤ histLen h)
    (hadj : h.adjClose = some ac)
    (h1 : stdZeroOrNaN (stdOpt fns.sqrt (returnsShift fns.log h.close)) = true)
    (h2 : stdZeroOrNaN (stdOpt fns.sqrt (returnsShift fns.log ac)) = true) :
    (∀ v3, stdOpt fns.sqrt (returnsHL fns.log h.high h.low) = some v3 →
      v3 * fns.sqrt 252 ≠ 0 →
      computeVol fns h = .ok (v3 * fns.sqrt 252,
        ["Using high-low range for volatility calculation"]))
    ∧ ((stdOpt fns.sqrt (returnsHL fns.log h.high h.low) = none ∨
        (∃ v3, stdOpt fns.sqrt (returnsHL fns.log h.high h.low) = some v3 ∧
          v3 * fns.sqrt 252 = 0)) →
      computeVol fns h = .ok (3/10,
        ["Using high-low range for volatility calculation",
         "Using market average volatility (0.3)"])) := by
  constructor
  · intro v3 hv3 hnz
    simp only [computeVol, h1, hadj, h2, hv3, if_true]
    rw [if_neg hnz]
  · intro hbad
    rcases hbad with hnone | ⟨v3, hv3, hz⟩
    · simp only [computeVol, h1, hadj, h2, hnone, if_true]
      rfl
    · simp only [computeVol, h1, hadj, h2, hv3, if_true]
      rw [if_pos hz]
      rfl

theorem vol_fallback_chain_amended_witness :
    computeVol idFns hist5w = .ok ((30/29) * idFns.sqrt 252,
      ["Using high-low range for volatility calculation"]) :=
  (vol_fallback_chain_amended idFns hist5w (List.replicate 30 1)
      (by decide) rfl (by decide) (by decide)).1 (30/29) (by decide) (by decide)

theorem resolveZTotalAssets_ok (bs : Df) (ta : PyVal) (s : List String)
    (h : resolveZTotalAssets bs = some (ta, s)) : is_problematic ta = false := by
  simp only [resolveZTotalAssets] at h
  split_ifs at h with h1 h2 <;> simp only [Option.some.injEq, Prod.mk.injEq] at h
  · rw [← h.1]
    simpa using h2
  · rw [← h.1]
    simpa using h1

theorem z_absent_note (inp : ZInput) :
    (calculate_z_score inp).1 = none → (calculate_z_score inp).2.1 ≠ [] := by
  simp only [calculate_z_score]
  cases hta : resolveZTotalAssets inp.bs with
  | none => intro _; simp
  | some t =>
    obtain ⟨ta, subsTA⟩ := t
    have hok := resolveZTotalAssets_ok inp.bs ta subsTA hta
    intro habs
    simp [hok] at habs

theorem ohlsonFinish_absent (fns : RealFns) (o : ℚ) (probs subs : List String)
    (h : (ohlsonFinish fns o probs subs).1 = none) :
    (ohlsonFinish fns o probs subs).2.2.1 ≠ [] := by
  unfold ohlsonFinish at h ⊢
  split_ifs at h ⊢ with h1 <;> simp_all

theorem ohlsonFinish_prob (fns : RealFns) (o q : ℚ) (probs subs : List String)
    (h : (ohlsonFinish fns o probs subs).1 = some q) :
    (ohlsonFinish fns o probs subs).2.1 = some (1 / (1 + fns.exp (-q))) := by
  unfold ohlsonFinish at h ⊢
  split_ifs at h ⊢ with h1 <;> simp_all

theorem o_absent_note (fns : RealFns) (inp : OInput) :
    (calculate_ohlson_score fns inp).1 = none →
    (calculate_ohlson_score fns inp).2.2.1 ≠ [] := by
  simp only [calculate_ohlson_score]
  cases hta : resolveOTotalAssets inp.bs with
  | none => intro _; simp
  | some t =>
    obtain ⟨taV, subsTA⟩ := t
    exact fun habs => ohlsonFinish_absent fns _ _ _ habs

theorem resolveMarketCap_none_note (inp : MInput) (lc : ℚ) (probs subs : List String)
    (h : resolveMarketCap inp lc = (none, probs, subs)) : probs ≠ [] := by
  simp only [resolveMarketCap] at h
  split_ifs at h <;> simp at h <;> (obtain ⟨hp, -⟩ := h; subst hp; simp)

theorem resolveLiabilities_none_note (bs : Df) (probs subs : List String)
    (h : resolveLiabilities bs = (none, probs, subs)) : probs ≠ [] := by
  simp only [resolveLiabilities] at h
  split_ifs at h <;> simp at h <;> (obtain ⟨hp, -⟩ := h; subst hp; simp)

theorem mertonCore_none_note (fns : RealFns) (vol E F : ℚ)
    (h : (mertonCore fns vol E F).1 = none) : (mertonCore fns vol E F).2.1 ≠ [] := by
  simp only [mertonCore] at h ⊢
  by_cases h1 : E + F = 0
  · rw [if_pos h1]
    simp
  · rw [if_neg h1] at h ⊢
    cases hfin : mertonFinal fns F (mertonLoop fns E F vol).1 with
    | none => simp
    | some t =>
      obtain ⟨a, b, c⟩ := t
      rw [hfin] at h
      simp at h

theorem m_absent_note (fns : RealFns) (inp : MInput) :
    (calculate_merton_default fns inp).1 = none →
    (calculate_merton_default fns inp).2.2.1 ≠ [] := by
  intro habs
  rcases hpick : pickHist inp with _ | ⟨h, subs0⟩
  · simp only [calculate_merton_default, hpick]
    simp
  · rcases hvol : computeVol fns h with e | ⟨vol, subs1⟩
    · simp only [calculate_merton_default, hpick, hvol]
      simp
    · rcases hmc : resolveMarketCap inp (h.close.getLastD 0) with ⟨_ | mcv, probs2, subs2⟩
      · simp only [calculate_merton_default, hpick, hvol, hmc]
        exact resolveMarketCap_none_note inp _ probs2 subs2 hmc
      · rcases htl : resolveLiabilities inp.bs with ⟨_ | tlv, probs3, subs3⟩
        · simp only [calculate_merton_default, hpick, hvol, hmc, htl]
          exact resolveLiabilities_none_note inp.bs probs3 subs3 htl
        · rcases hcore : (mertonCore fns vol mcv.toRat tlv.toRat).1 with _ | ⟨p, dd⟩
          · simp only [calculate_merton_default, hpick, hvol, hmc, htl, hcore]
            exact mertonCore_none_note fns vol _ _ hcore
          · simp only [calculate_merton_default, hpick, hvol, hmc, htl, hcore] at habs
            simp at habs

/-- C8: for each of the three calculators and any input, whenever the
returned score / probability is absent the returned problematic-values
list is non-empty. -/
theorem absent_score_has_note (inpZ : ZInput) (fns : RealFns) (inpO : OInput)
    (inpM : MInput) :
    ((calculate_z_score inpZ).1 = none → (calculate_z_score inpZ).2.1 ≠ []) ∧
    ((calculate_ohlson_score fns inpO).1 = none →
      (calculate_ohlson_score fns inpO).2.2.1 ≠ []) ∧
    ((calculate_merton_default fns inpM).1 = none →
      (calculate_merton_default fns inpM).2.2.1 ≠ []) :=
  ⟨z_absent_note inpZ, o_absent_note fns inpO, m_absent_note fns inpM⟩

theorem absent_score_has_note_witness :
    (calculate_z_score ⟨[], [], .num 0, .num 0, .num 0⟩).2.1 ≠ [] ∧
    (calculate_ohlson_score idFns ⟨[], []⟩).2.2.1 ≠ [] ∧
    (calculate_merton_default idFns mIn0).2.2.1 ≠ [] :=
  ⟨(absent_score_has_note ⟨[], [], .num 0, .num 0, .num 0⟩ idFns ⟨[], []⟩ mIn0).1
      (by decide),
   (absent_score_has_note ⟨[], [], .num 0, .num 0, .num 0⟩ idFns ⟨[], []⟩ mIn0).2.1
      (by decide),
   (absent_score_has_note ⟨[], [], .num 0, .num 0, .num 0⟩ idFns ⟨[], []⟩ mIn0).2.2
      (by decide)⟩

/-- C9: the O-Score combination of the source carries the `oeneg`
indicator twice, with coefficients `+2.37` and `-1.72` — a net
`+0.65*oeneg` — and whenever a score is returned the accompanying default
probability is exactly `1/(1 + exp(-o_score))`. -/
theorem ohlson_formula_double_oeneg :
    (∀ size tlta wcta clca oeneg nita intwo chin : ℚ,
      oScoreFrom size tlta wcta clca oeneg nita intwo chin =
        -1.32 - 0.407 * size + 6.03 * tlta - 1.43 * wcta + 0.0757 * clca
          + 0.65 * oeneg - 1.83 * nita + 0.285 * intwo - 0.521 * chin)
    ∧ (∀ (fns : RealFns) (inp : OInput) (o : ℚ),
        (calculate_ohlson_score fns inp).1 = some o →
        (calculate_ohlson_score fns inp).2.1 = some (1 / (1 + fns.exp (-o)))) := by
  constructor
  · intro size tlta wcta clca oeneg nita intwo chin
    unfold oScoreFrom
    ring
  · intro fns inp o
    simp only [calculate_ohlson_score]
    cases hta : resolveOTotalAssets inp.bs with
    | none => intro habs; simp at habs
    | some t =>
      obtain ⟨taV, subsTA⟩ := t
      exact fun habs => ohlsonFinish_prob fns _ o _ _ habs

theorem ohlson_formula_double_oeneg_witness :
    (calculate_ohlson_score idFns oEx).2.1 = some (1 / (1 + idFns.exp (-oExScore))) :=
  ohlson_formula_double_oeneg.2 idFns oEx oExScore (by decide)

end DecideEval

end CreditAnalyzer
